import Mathlib

/-!
Verification development for the hexagonal wipe-transition engine of the
uncertaintylab repository.

The repository contains two variants of the `PageTransition` component:

* a directional-wave variant (quartic easing, `HEX_SIZE = 40`,
  `HEX_DRAW_SIZE = 48`, `WAVE_SPREAD = 0.5`, `STAGGER_NOISE = 0.03`,
  `DURATION = 950`, horizontal left-to-right / right-to-left wave),
  embedded below in namespace `Directional`;
* a radial-wave variant (`src/components/PageTransition.tsx`: cubic
  ease-in-out for both directions, `HEX_SIZE = 32`, `WAVE_SPREAD = 0.35`,
  `STAGGER_NOISE = 0.06`, `DURATION = 850`, wave radiating from an origin
  point), embedded below in namespace `Radial`.

Numbers are modelled by `ℚ`.  The floating-point library calls with
irrational exact values are modelled by explicit parameters:
`sqrt3 : ℚ` stands for the double value of `Math.sqrt(3)` (constrained by
`1.7 < sqrt3 < 1.8` where a theorem needs it), `sinQ : ℚ → ℚ` for
`Math.sin` (constrained by `-1 ≤ sinQ t ≤ 1`), `sqrtQ : ℚ → ℚ` for
`Math.sqrt`, and `rand : ℕ → ℚ` for the per-tile sequence of
`Math.random()` draws (constrained by `0 ≤ rand i < 1`).
-/

/-- Animation direction of a run (`'reveal' | 'hide'` in the source). -/
inductive Direction where
  | reveal
  | hide
deriving DecidableEq, Repr

/-- Horizontal wave direction (`'ltr' | 'rtl'` in the source). -/
inductive WaveDir where
  | ltr
  | rtl
deriving DecidableEq, Repr

/-- Callback events observable by the consumer of a run. -/
inductive Event where
  | partialReveal
  | complete
deriving DecidableEq, Repr

/-- A hexagon tile record `{ x, y, delay }`. -/
structure Hex where
  x : ℚ
  y : ℚ
  delay : ℚ
deriving DecidableEq, Repr

namespace Directional

def HEX_SIZE : ℚ := 40
def HEX_DRAW_SIZE : ℚ := 48
def WAVE_SPREAD : ℚ := 1/2
def STAGGER_NOISE : ℚ := 3/100
def DURATION : ℚ := 950

/-- `easeOutQuart`: `1 - Math.pow(1 - t, 4)`. -/
def easeOutQuart (t : ℚ) : ℚ := 1 - (1 - t)^4

/-- `easeInQuart`: `t * t * t * t`. -/
def easeInQuart (t : ℚ) : ℚ := t * t * t * t

/-- `generateHexGrid(width, height)`; `sqrt3` models `Math.sqrt(3)`.
The row-major push order of the nested `for` loops is preserved.
`Math.ceil` on a possibly negative count followed by the
`for (i = 0; i < n; i++)` loop is modelled by `Int.toNat`. -/
def generateHexGrid (width height sqrt3 : ℚ) : List Hex :=
  let hexWidth := HEX_SIZE * 2
  let hexHeight := sqrt3 * HEX_SIZE
  let horizDist := hexWidth * (72/100)
  let vertDist := hexHeight * (88/100)
  let cols := (⌈width / horizDist⌉ + 8).toNat
  let rows := (⌈height / vertDist⌉ + 8).toNat
  let startX := -(HEX_SIZE * 4)
  let startY := -(HEX_SIZE * 4)
  (List.range rows).flatMap (fun (row : ℕ) =>
    (List.range cols).map (fun (col : ℕ) =>
      { x := startX + (col : ℚ) * horizDist
        y := startY + (row : ℚ) * vertDist + (if col % 2 = 1 then vertDist / 2 else 0)
        delay := 0 }))

/-- Delay assignment of a single tile inside `calculateDelays`:
`clamp(baseDelay * WAVE_SPREAD + verticalWave + randomOffset, 0, 0.95)`
where `verticalWave = Math.sin(hex.y * 0.015) * 0.02` and
`randomOffset = (Math.random() - 0.5) * STAGGER_NOISE`. -/
def delayOf (width : ℚ) (dir : WaveDir) (sinQ : ℚ → ℚ) (r : ℚ) (hx : Hex) : Hex :=
  let minX := -(HEX_SIZE * 4)
  let maxX := width + HEX_SIZE * 4
  let range := maxX - minX
  let normalizedX := (hx.x - minX) / range
  let verticalWave := sinQ (hx.y * (15/1000)) * (2/100)
  let randomOffset := (r - 1/2) * STAGGER_NOISE
  let baseDelay := match dir with
    | .ltr => normalizedX
    | .rtl => 1 - normalizedX
  { x := hx.x, y := hx.y
    delay := max 0 (min (95/100) (baseDelay * WAVE_SPREAD + verticalWave + randomOffset)) }

/-- `calculateDelays(hexes, width, direction)`: one `Math.random()` draw per
tile, in iteration order; `rand` supplies the draws, `k` the index of the
first tile. -/
def calculateDelays (width : ℚ) (dir : WaveDir) (sinQ : ℚ → ℚ) (rand : ℕ → ℚ) :
    ℕ → List Hex → List Hex
  | _, [] => []
  | k, hx :: rest =>
      delayOf width dir sinQ (rand k) hx :: calculateDelays width dir sinQ rand (k+1) rest

/-- Per-tile local progress inside `animate`:
`Math.max(0, Math.min(1, (progress - hex.delay) / (1 - WAVE_SPREAD)))`. -/
def hexProgress (progress delay : ℚ) : ℚ :=
  max 0 (min 1 ((progress - delay) / (1 - WAVE_SPREAD)))

/-- Eased per-tile progress: quartic ease-out on reveal, ease-in on hide. -/
def easedProgress (dir : Direction) (progress delay : ℚ) : ℚ :=
  match dir with
  | .reveal => easeOutQuart (hexProgress progress delay)
  | .hide => easeInQuart (hexProgress progress delay)

/-- The scale factor applied to `HEX_DRAW_SIZE`: `1 - easedProgress` on
reveal (tile shrinks), `easedProgress` on hide (tile grows). -/
def tileScale (dir : Direction) (progress delay : ℚ) : ℚ :=
  match dir with
  | .reveal => 1 - easedProgress .reveal progress delay
  | .hide => easedProgress .hide progress delay

/-- The size passed to `drawHexagon`: `HEX_DRAW_SIZE * scale`. -/
def tileDrawSize (dir : Direction) (progress delay : ℚ) : ℚ :=
  HEX_DRAW_SIZE * tileScale dir progress delay

/-- Whether a tile is actually painted on a tick: the `animate` loop draws
only when `scale > 0.01`, and `drawHexagon` returns early when
`size < 1`. -/
def paintsTile (dir : Direction) (progress : ℚ) (hx : Hex) : Bool :=
  decide (tileScale dir progress hx.delay > 1/100) &&
    decide (1 ≤ tileDrawSize dir progress hx.delay)

/-- Number of tile draw calls actually painted on one tick. -/
def frameDrawCalls (dir : Direction) (progress : ℚ) (hexes : List Hex) : ℕ :=
  (hexes.filter (paintsTile dir progress)).length

end Directional

namespace Radial

def HEX_SIZE : ℚ := 32
def WAVE_SPREAD : ℚ := 35/100
def STAGGER_NOISE : ℚ := 6/100
def DURATION : ℚ := 850

/-- `easeInOutCubic`: `t < 0.5 ? 4*t*t*t : 1 - Math.pow(-2*t + 2, 3)/2`. -/
def easeInOutCubic (t : ℚ) : ℚ :=
  if t < 1/2 then 4 * t * t * t else 1 - (-2*t + 2)^3 / 2

/-- Delay assignment of a single tile inside this variant's
`calculateDelays`: `clamp(normalizedDist * WAVE_SPREAD + randomOffset, 0, 1)`
with `normalizedDist = dist(hex, origin) / maxDist`; `sqrtQ` models
`Math.sqrt`. -/
def delayOf (sqrtQ : ℚ → ℚ) (width height originX originY : ℚ) (r : ℚ) (hx : Hex) : Hex :=
  let maxDist := sqrtQ (width * width + height * height)
  let dx := hx.x - originX
  let dy := hx.y - originY
  let dist := sqrtQ (dx * dx + dy * dy)
  let normalizedDist := dist / maxDist
  let randomOffset := (r - 1/2) * STAGGER_NOISE
  { x := hx.x, y := hx.y
    delay := max 0 (min 1 (normalizedDist * WAVE_SPREAD + randomOffset)) }

/-- `calculateDelays(hexes, width, height, originX, originY)` of the radial
variant, with one `Math.random()` draw per tile in iteration order. -/
def calculateDelays (sqrtQ : ℚ → ℚ) (rand : ℕ → ℚ) (width height originX originY : ℚ) :
    ℕ → List Hex → List Hex
  | _, [] => []
  | k, hx :: rest =>
      delayOf sqrtQ width height originX originY (rand k) hx ::
        calculateDelays sqrtQ rand width height originX originY (k+1) rest

/-- Per-tile local progress: same clamp as the directional variant but with
`WAVE_SPREAD = 0.35`. -/
def hexProgress (progress delay : ℚ) : ℚ :=
  max 0 (min 1 ((progress - delay) / (1 - WAVE_SPREAD)))

/-- Eased per-tile progress: this variant uses `easeInOutCubic` for both
directions. -/
def easedProgress (progress delay : ℚ) : ℚ :=
  easeInOutCubic (hexProgress progress delay)

/-- The size passed to `drawHexagon`: `HEX_SIZE * scale`, with
`scale = 1 - easedProgress` on reveal and `easedProgress` on hide. -/
def tileDrawSize (dir : Direction) (progress delay : ℚ) : ℚ :=
  match dir with
  | .reveal => HEX_SIZE * (1 - easedProgress progress delay)
  | .hide => HEX_SIZE * easedProgress progress delay

/-- `generateHexGrid(width, height)` of the radial variant:
`horizDist = hexWidth * 0.75 + 2`, `vertDist = hexHeight + 2`, two extra
columns/rows of overscan on each side; `sqrt3` models `Math.sqrt(3)`. -/
def generateHexGrid (width height sqrt3 : ℚ) : List Hex :=
  let hexWidth := HEX_SIZE * 2
  let hexHeight := sqrt3 * HEX_SIZE
  let horizDist := hexWidth * (75/100) + 2
  let vertDist := hexHeight + 2
  let cols := (⌈width / horizDist⌉ + 4).toNat
  let rows := (⌈height / vertDist⌉ + 4).toNat
  (List.range rows).flatMap (fun (row : ℕ) =>
    (List.range cols).map (fun (col : ℕ) =>
      { x := -(HEX_SIZE * 2) + (col : ℚ) * horizDist
        y := -(HEX_SIZE * 2) + (row : ℚ) * vertDist + (if col % 2 = 1 then vertDist / 2 else 0)
        delay := 0 }))

end Radial

namespace Spec

/-- Spec formula (§4.3): `localProgress = clamp((globalProgress − delay)/(1 − spread), 0, 1)`. -/
def localProgress (g delay spread : ℚ) : ℚ :=
  max 0 (min 1 ((g - delay) / (1 - spread)))

/-- Spec formula (§4.3): quartic ease-out for reveal, quartic ease-in for hide. -/
def easedProgress (dir : Direction) (g delay spread : ℚ) : ℚ :=
  match dir with
  | .reveal => 1 - (1 - localProgress g delay spread)^4
  | .hide => (localProgress g delay spread)^4

/-- Spec formula (§4.3): drawn radius `drawRadius × (1 − easedProgress)` for
reveal, `drawRadius × easedProgress` for hide. -/
def tileRadius (dir : Direction) (g delay spread drawRadius : ℚ) : ℚ :=
  match dir with
  | .reveal => drawRadius * (1 - easedProgress .reveal g delay spread)
  | .hide => drawRadius * easedProgress .hide g delay spread

end Spec

/-- C2's property as claimed: for every tile produced by `calculateDelays`
(either variant, any viewport, any wave origin/direction, any jitter draw,
and any admissible values of the floating-point `Math.sqrt(3)`, `Math.sin`,
`Math.sqrt` and `Math.random` calls), the assigned delay lies in
`[0, WAVE_SPREAD]`. -/
def delaysWithinSpread : Prop :=
  (∀ (w h sqrt3 : ℚ) (dir : WaveDir) (sinQ : ℚ → ℚ) (rand : ℕ → ℚ),
      17/10 < sqrt3 → sqrt3 < 9/5 →
      (∀ t, -1 ≤ sinQ t ∧ sinQ t ≤ 1) →
      (∀ i, 0 ≤ rand i ∧ rand i < 1) →
      ∀ hx ∈ Directional.calculateDelays w dir sinQ rand 0
          (Directional.generateHexGrid w h sqrt3),
        0 ≤ hx.delay ∧ hx.delay ≤ Directional.WAVE_SPREAD) ∧
  (∀ (w h ox oy sqrt3 : ℚ) (sqrtQ : ℚ → ℚ) (rand : ℕ → ℚ),
      17/10 < sqrt3 → sqrt3 < 9/5 →
      (∀ q, 0 ≤ sqrtQ q) →
      (∀ i, 0 ≤ rand i ∧ rand i < 1) →
      ∀ hx ∈ Radial.calculateDelays sqrtQ rand w h ox oy 0
          (Radial.generateHexGrid w h sqrt3),
        0 ≤ hx.delay ∧ hx.delay ≤ Radial.WAVE_SPREAD)

namespace Directional

/-- State of one `animate` run: the `startTime` ref, the `partialFired` ref,
and whether the loop has stopped rescheduling (`finished = true` once the
`progress < 1` test fails and `onComplete` has fired). -/
structure RunState where
  startTime : Option ℚ
  partialFired : Bool
  finished : Bool
deriving DecidableEq, Repr

/-- The fresh run state set up by the effect body:
`startTime.current = null`, `partialFired.current = false`. -/
def initialRunState : RunState := { startTime := none, partialFired := false, finished := false }

/-- One invocation of `animate(timestamp)`: latch `startTime`, compute
`progress = Math.min(1, elapsed / DURATION)`, fire `onPartialReveal` when
`!partialFired && progress >= 0.45 && direction === 'reveal'`, then either
reschedule (`progress < 1`) or fire `onComplete` and stop.  Returns the new
state and the callback events emitted by this tick, in invocation order. -/
def tick (dir : Direction) (s : RunState) (ts : ℚ) : RunState × List Event :=
  if s.finished then (s, [])
  else
    let t0 := s.startTime.getD ts
    let progress := min 1 ((ts - t0) / DURATION)
    let fires := s.partialFired = false ∧ 45/100 ≤ progress ∧ dir = Direction.reveal
    let pf := if fires then true else s.partialFired
    let evs := if fires then [Event.partialReveal] else []
    if progress < 1 then
      ({ startTime := some t0, partialFired := pf, finished := false }, evs)
    else
      ({ startTime := some t0, partialFired := pf, finished := true }, evs ++ [Event.complete])

/-- Drive a run through a sequence of clock timestamps, collecting the
callback events in invocation order. -/
def runTicks (dir : Direction) : RunState → List ℚ → RunState × List Event
  | s, [] => (s, [])
  | s, ts :: rest =>
      let r1 := tick dir s ts
      let r2 := runTicks dir r1.1 rest
      (r2.1, r1.2 ++ r2.2)

/-- Outcome of one execution of the `HexGridCanvas` effect body (the
`useEffect` that sets up a run), before any `animate` tick is processed. -/
structure EffectOutcome where
  /-- number of tiles put into `hexesRef` by `generateHexGrid` -/
  tilesGenerated : ℕ
  /-- tile draw calls actually painted by the initial-frame drawing -/
  tileDrawCalls : ℕ
  /-- whether the per-frame `requestAnimationFrame` loop was armed -/
  frameLoopArmed : Bool
  /-- the reduced-motion `setTimeout`, as (delay in ms, events it will fire) -/
  reducedTimeout : Option (ℚ × List Event)
  /-- callbacks invoked synchronously during the effect body itself -/
  syncCallbacks : List Event
deriving DecidableEq, Repr

/-- The `useEffect` body of `HexGridCanvas`: early returns when inactive or
when the canvas element / 2D context is unavailable; grid generation and
delay assignment; the reduced-motion branch (a 50 ms `setTimeout` firing
`onPartialReveal` then `onComplete`, no frame loop); otherwise the initial
frame (on reveal every tile is drawn at full `HEX_DRAW_SIZE = 48 ≥ 1`; on
hide only the background is filled) and the arming of the animation loop. -/
def runEffect (isActive canvasPresent ctxPresent reducedMotion : Bool)
    (dir : Direction) (width height sqrt3 : ℚ) : EffectOutcome :=
  if isActive = false then
    { tilesGenerated := 0, tileDrawCalls := 0, frameLoopArmed := false
      reducedTimeout := none, syncCallbacks := [] }
  else if canvasPresent = false then
    { tilesGenerated := 0, tileDrawCalls := 0, frameLoopArmed := false
      reducedTimeout := none, syncCallbacks := [] }
  else if ctxPresent = false then
    { tilesGenerated := 0, tileDrawCalls := 0, frameLoopArmed := false
      reducedTimeout := none, syncCallbacks := [] }
  else
    let hexes := generateHexGrid width height sqrt3
    if reducedMotion then
      { tilesGenerated := hexes.length, tileDrawCalls := 0, frameLoopArmed := false
        reducedTimeout := some (50, [Event.partialReveal, Event.complete])
        syncCallbacks := [] }
    else
      { tilesGenerated := hexes.length
        tileDrawCalls := match dir with | .reveal => hexes.length | .hide => 0
        frameLoopArmed := true, reducedTimeout := none, syncCallbacks := [] }

end Directional

/-- Phase of the `PageTransition` state machine. -/
inductive Phase where
  | entering
  | visible
  | exiting
deriving DecidableEq, Repr

/-- State owned by the `PageTransition` component together with the
window-level navigation stash and the navigations performed so far.
`runsStarted` counts the hide `AnimationRun`s started by transitions into
the exiting phase (each such transition mounts one `HexGridCanvas` with
`direction='hide'`). -/
structure PageState where
  phase : Phase
  showContent : Bool
  showCanvas : Bool
  /-- the `window.__exitTarget` single-slot stash; `none` models `undefined` -/
  exitTarget : Option String
  /-- navigations performed, in order -/
  navigations : List String
  runsStarted : ℕ
deriving DecidableEq, Repr

/-- `handleExit(targetPath)`: re-entrancy guard on the exiting phase, then
stash the target and enter the exiting phase (mounting one hide run). -/
def handleExit (s : PageState) (targetPath : String) : PageState :=
  if s.phase = Phase.exiting then s
  else
    { phase := Phase.exiting, showContent := false, showCanvas := true
      exitTarget := some targetPath, navigations := s.navigations
      runsStarted := s.runsStarted + 1 }

/-- `handleExitComplete()`: read `window.__exitTarget`; `if (target)` is JS
truthiness, so an absent slot or an empty string skips the branch; inside
the branch, navigate and clear the slot.  Nothing else is changed — in
particular the phase is left as is. -/
def handleExitComplete (s : PageState) : PageState :=
  match s.exitTarget with
  | none => s
  | some target =>
      if target.isEmpty then s
      else
        { phase := s.phase, showContent := s.showContent, showCanvas := s.showCanvas
          exitTarget := none, navigations := s.navigations ++ [target]
          runsStarted := s.runsStarted }

/-- C1: calling `requestExit` (`handleExit`) twice in immediate succession
while no exit is completed starts exactly one hide `AnimationRun`, the
pending-target slot keeps the first supplied target (the second call is a
no-op), and the navigation performed at exit completion goes to the first
target. -/
theorem handleExit_idempotent (s : PageState) (t1 t2 : String)
    (hs : s.phase ≠ Phase.exiting) (ht : t1 ≠ "") :
    (handleExit (handleExit s t1) t2).exitTarget = some t1 ∧
    (handleExit (handleExit s t1) t2).runsStarted = s.runsStarted + 1 ∧
    (handleExitComplete (handleExit (handleExit s t1) t2)).navigations
      = s.navigations ++ [t1] := by
  have hempty : t1.isEmpty = false := by
    rcases Bool.eq_false_or_eq_true t1.isEmpty with h | h
    · exact absurd ((String.isEmpty_iff t1).mp h) ht
    · exact h
  simp [handleExit, handleExitComplete, hs, hempty]

theorem handleExit_idempotent_witness :
    ((⟨Phase.visible, true, false, none, [], 0⟩ : PageState).phase ≠ Phase.exiting) ∧
    (handleExit (handleExit ⟨Phase.visible, true, false, none, [], 0⟩ "/research") "/methods").exitTarget
        = some "/research" ∧
    (handleExit (handleExit ⟨Phase.visible, true, false, none, [], 0⟩ "/research") "/methods").runsStarted
        = 0 + 1 ∧
    (handleExitComplete
        (handleExit (handleExit ⟨Phase.visible, true, false, none, [], 0⟩ "/research") "/methods")).navigations
      = [] ++ ["/research"] :=
  ⟨by decide, handleExit_idempotent ⟨Phase.visible, true, false, none, [], 0⟩
    "/research" "/methods" (by decide) (by decide)⟩

/-- C8 counterexample: when the exiting run completes with no pending
target, the phase stays `exiting`; the state machine does not re-enter
`visible` as the claim states. -/
theorem exitComplete_noTarget_counterexample :
    (handleExitComplete ⟨Phase.exiting, false, true, none, [], 1⟩).phase = Phase.exiting ∧
    (handleExitComplete ⟨Phase.exiting, false, true, none, [], 1⟩).phase ≠ Phase.visible ∧
    (handleExitComplete ⟨Phase.exiting, false, true, none, [], 1⟩).navigations = [] := by
  decide

/-- C8 amended: if the exiting run's `onComplete` fires while no navigation
target is pending (absent slot, or the JS-falsy empty string), navigation is
skipped and the whole state is left unchanged — in particular the phase
remains `exiting`; `visible` is not re-entered. -/
theorem exitComplete_noTarget_skips (s : PageState)
    (h : s.exitTarget = none ∨ s.exitTarget = some "") :
    handleExitComplete s = s := by
  have he : "".isEmpty = true := rfl
  rcases h with h | h <;> simp [handleExitComplete, h, he]

theorem exitComplete_noTarget_skips_witness :
    ((⟨Phase.exiting, false, true, none, [], 1⟩ : PageState).exitTarget = none ∨
      (⟨Phase.exiting, false, true, none, [], 1⟩ : PageState).exitTarget = some "") ∧
    handleExitComplete ⟨Phase.exiting, false, true, none, [], 1⟩
      = ⟨Phase.exiting, false, true, none, [], 1⟩ :=
  ⟨Or.inl rfl, exitComplete_noTarget_skips ⟨Phase.exiting, false, true, none, [], 1⟩ (Or.inl rfl)⟩

/-- C10: an exit request with an empty-string target starts the hide run,
but at completion the JS-falsy target skips navigation without clearing the
slot or changing the phase, so the machine stays in `exiting` and every
subsequent exit request is dropped by the re-entrancy guard. -/
theorem emptyTarget_exit_wedges (s : PageState) (t : String)
    (hs : s.phase ≠ Phase.exiting) :
    (handleExit s "").phase = Phase.exiting ∧
    (handleExit s "").runsStarted = s.runsStarted + 1 ∧
    (handleExitComplete (handleExit s "")).navigations = s.navigations ∧
    (handleExitComplete (handleExit s "")).exitTarget = some "" ∧
    (handleExitComplete (handleExit s "")).phase = Phase.exiting ∧
    handleExit (handleExitComplete (handleExit s "")) t
      = handleExitComplete (handleExit s "") := by
  have he : "".isEmpty = true := rfl
  simp [handleExit, handleExitComplete, hs, he]

theorem emptyTarget_exit_wedges_witness :
    ((⟨Phase.visible, true, false, none, [], 0⟩ : PageState).phase ≠ Phase.exiting) ∧
    (handleExit ⟨Phase.visible, true, false, none, [], 0⟩ "").phase = Phase.exiting ∧
    (handleExitComplete (handleExit ⟨Phase.visible, true, false, none, [], 0⟩ "")).exitTarget
      = some "" ∧
    handleExit (handleExitComplete (handleExit ⟨Phase.visible, true, false, none, [], 0⟩ "")) "/home"
      = handleExitComplete (handleExit ⟨Phase.visible, true, false, none, [], 0⟩ "") := by
  have h := emptyTarget_exit_wedges ⟨Phase.visible, true, false, none, [], 0⟩ "/home" (by decide)
  exact ⟨by decide, h.1, h.2.2.2.1, h.2.2.2.2.2⟩

namespace Directional

lemma tick_finished_eq (dir : Direction) (st : Option ℚ) (pf : Bool) (ts : ℚ) :
    tick dir ⟨st, pf, true⟩ ts = (⟨st, pf, true⟩, []) := by
  simp [tick]

lemma runTicks_finished (dir : Direction) (st : Option ℚ) (pf : Bool) (l : List ℚ) :
    runTicks dir ⟨st, pf, true⟩ l = (⟨st, pf, true⟩, []) := by
  induction l with
  | nil => rfl
  | cons ts rest ih => simp [runTicks, tick_finished_eq, ih]

lemma tick_hide_events (s : RunState) (ts : ℚ) :
    (tick Direction.hide s ts).2 = [] ∨ (tick Direction.hide s ts).2 = [Event.complete] := by
  unfold tick
  by_cases hfin : s.finished
  · simp [hfin]
  · simp only [hfin, Bool.false_eq_true, if_false, reduceCtorEq, and_false, if_false]
    split_ifs <;> simp

lemma tick_reveal_complete (t0 : ℚ) (pf : Bool) (ts : ℚ) (h : t0 + DURATION ≤ ts) :
    tick Direction.reveal ⟨some t0, pf, false⟩ ts =
      (⟨some t0, true, true⟩,
        (if pf then [] else [Event.partialReveal]) ++ [Event.complete]) := by
  have hD : (0:ℚ) < 950 := by norm_num
  have h1 : (1:ℚ) ≤ (ts - t0) / DURATION := by
    rw [DURATION, le_div_iff₀ hD]
    linarith [h, show DURATION = (950:ℚ) from rfl]
  have hmin : min 1 ((ts - t0) / DURATION) = 1 := min_eq_left h1
  unfold tick
  simp only [show (⟨some t0, pf, false⟩ : RunState).finished = false from rfl,
    Bool.false_eq_true, if_false, Option.getD_some, hmin]
  have hth : (45:ℚ)/100 ≤ 1 := by norm_num
  have hnlt : ¬ ((1:ℚ) < 1) := lt_irrefl 1
  cases pf <;> simp [hth, hnlt]

lemma tick_reveal_running (t0 : ℚ) (pf : Bool) (ts : ℚ) (h : ts < t0 + DURATION) :
    tick Direction.reveal ⟨some t0, pf, false⟩ ts =
      if pf = false ∧ 45/100 ≤ (ts - t0) / DURATION then
        (⟨some t0, true, false⟩, [Event.partialReveal])
      else (⟨some t0, pf, false⟩, []) := by
  have hD : (0:ℚ) < 950 := by norm_num
  have h1 : (ts - t0) / DURATION < 1 := by
    rw [DURATION, div_lt_one hD]
    linarith [h, show DURATION = (950:ℚ) from rfl]
  have hmin : min 1 ((ts - t0) / DURATION) = (ts - t0) / DURATION :=
    min_eq_right (le_of_lt h1)
  unfold tick
  simp only [show (⟨some t0, pf, false⟩ : RunState).finished = false from rfl,
    Bool.false_eq_true, if_false, Option.getD_some, hmin]
  simp only [h1, if_true, and_true]
  split_ifs with hc <;> simp_all

lemma runTicks_reveal_completes (t0 : ℚ) (pf : Bool) (l : List ℚ)
    (h : ∃ ts ∈ l, t0 + DURATION ≤ ts) :
    (runTicks Direction.reveal ⟨some t0, pf, false⟩ l).2
      = (if pf then [] else [Event.partialReveal]) ++ [Event.complete] := by
  induction l generalizing pf with
  | nil => simp at h
  | cons ts rest ih =>
    by_cases hts : t0 + DURATION ≤ ts
    · rw [show runTicks Direction.reveal ⟨some t0, pf, false⟩ (ts :: rest)
          = (let r1 := tick Direction.reveal ⟨some t0, pf, false⟩ ts
             let r2 := runTicks Direction.reveal r1.1 rest
             (r2.1, r1.2 ++ r2.2)) from rfl]
      simp only [tick_reveal_complete t0 pf ts hts, runTicks_finished]
      simp
    · have h' : ∃ w ∈ rest, t0 + DURATION ≤ w := by
        obtain ⟨w, hw, hle⟩ := h
        rcases List.mem_cons.mp hw with rfl | hw'
        · exact absurd hle hts
        · exact ⟨w, hw', hle⟩
      have hlt : ts < t0 + DURATION := lt_of_not_le hts
      rw [show runTicks Direction.reveal ⟨some t0, pf, false⟩ (ts :: rest)
          = (let r1 := tick Direction.reveal ⟨some t0, pf, false⟩ ts
             let r2 := runTicks Direction.reveal r1.1 rest
             (r2.1, r1.2 ++ r2.2)) from rfl]
      simp only [tick_reveal_running t0 pf ts hlt]
      by_cases hc : pf = false ∧ 45/100 ≤ (ts - t0) / DURATION
      · simp only [hc, if_true]
        simp [ih true h', hc.1]
      · simp only [hc, if_false]
        simp [ih pf h']

end Directional

/-- C9: in a hide (exiting) run, `onPartialReveal` is never invoked on any
tick sequence: the partial-reveal check is gated on the direction being
reveal. -/
theorem hideRun_never_fires_partial (s : Directional.RunState) (tss : List ℚ) :
    Event.partialReveal ∉ (Directional.runTicks Direction.hide s tss).2 := by
  induction tss generalizing s with
  | nil => simp [Directional.runTicks]
  | cons ts rest ih =>
    rw [show Directional.runTicks Direction.hide s (ts :: rest)
        = (let r1 := Directional.tick Direction.hide s ts
           let r2 := Directional.runTicks Direction.hide r1.1 rest
           (r2.1, r1.2 ++ r2.2)) from rfl]
    simp only [List.mem_append, not_or]
    refine ⟨?_, ih _⟩
    rcases Directional.tick_hide_events s ts with h | h <;> simp [h]

/-- C3: an entering (reveal) run driven by a strictly increasing sequence of
tick timestamps that reaches the full duration emits exactly the callback
trace `[onPartialReveal, onComplete]`: `onPartialReveal` exactly once,
strictly before `onComplete`, and `onComplete` at most once. -/
theorem enteringRun_callback_order (t0 : ℚ) (rest : List ℚ)
    (_hinc : List.Chain (· < ·) t0 rest)
    (hdone : ∃ ts ∈ rest, t0 + Directional.DURATION ≤ ts) :
    (Directional.runTicks Direction.reveal Directional.initialRunState (t0 :: rest)).2
      = [Event.partialReveal, Event.complete] := by
  rw [show Directional.runTicks Direction.reveal Directional.initialRunState (t0 :: rest)
      = (let r1 := Directional.tick Direction.reveal Directional.initialRunState t0
         let r2 := Directional.runTicks Direction.reveal r1.1 rest
         (r2.1, r1.2 ++ r2.2)) from rfl]
  have hfirst : Directional.tick Direction.reveal Directional.initialRunState t0
      = (⟨some t0, false, false⟩, []) := by
    have hlt : t0 < t0 + Directional.DURATION := by
      rw [Directional.DURATION]; linarith
    have := Directional.tick_reveal_running t0 false t0 hlt
    simp only [sub_self, zero_div] at this
    rw [show Directional.initialRunState = ⟨none, false, false⟩ from rfl]
    rw [show Directional.tick Direction.reveal ⟨none, false, false⟩ t0
        = Directional.tick Direction.reveal ⟨some t0, false, false⟩ t0 from by
      unfold Directional.tick; simp]
    rw [this]
    norm_num
  simp only [hfirst]
  have := Directional.runTicks_reveal_completes t0 false rest hdone
  simp only [Bool.false_eq_true, if_false] at this
  simp [this]

theorem enteringRun_callback_order_witness :
    List.Chain (· < ·) (0:ℚ) [500, 1000] ∧
    (∃ ts ∈ [(500:ℚ), 1000], (0:ℚ) + Directional.DURATION ≤ ts) ∧
    (Directional.runTicks Direction.reveal Directional.initialRunState [0, 500, 1000]).2
      = [Event.partialReveal, Event.complete] :=
  ⟨by norm_num, ⟨1000, by norm_num, by rw [Directional.DURATION]; norm_num⟩,
    enteringRun_callback_order 0 [500, 1000] (by norm_num)
      ⟨1000, by norm_num, by rw [Directional.DURATION]; norm_num⟩⟩

namespace Directional

lemma calculateDelays_delay_bounds (w : ℚ) (dir : WaveDir) (sinQ : ℚ → ℚ)
    (rand : ℕ → ℚ) (k : ℕ) (hexes : List Hex) :
    ∀ hx ∈ calculateDelays w dir sinQ rand k hexes,
      0 ≤ hx.delay ∧ hx.delay ≤ 95/100 := by
  induction hexes generalizing k with
  | nil => simp [calculateDelays]
  | cons a rest ih =>
    intro hx hmem
    rcases List.mem_cons.mp hmem with rfl | hmem'
    · refine ⟨le_max_left _ _, ?_⟩
      exact max_le (by norm_num) (min_le_left _ _)
    · exact ih (k+1) hx hmem'

end Directional

namespace Radial

lemma calculateDelays_delay_bounds_radial (sqrtQ : ℚ → ℚ) (rand : ℕ → ℚ)
    (w h ox oy : ℚ) (k : ℕ) (hexes : List Hex) :
    ∀ hx ∈ calculateDelays sqrtQ rand w h ox oy k hexes,
      0 ≤ hx.delay ∧ hx.delay ≤ 1 := by
  induction hexes generalizing k with
  | nil => simp [calculateDelays]
  | cons a rest ih =>
    intro hx hmem
    rcases List.mem_cons.mp hmem with rfl | hmem'
    · refine ⟨le_max_left _ _, ?_⟩
      exact max_le (by norm_num) (min_le_left _ _)
    · exact ih (k+1) hx hmem'

end Radial


namespace Directional

lemma calculateDelays_const_rand (w : ℚ) (dir : WaveDir) (sinQ : ℚ → ℚ) (r : ℚ)
    (k : ℕ) (hexes : List Hex) :
    calculateDelays w dir sinQ (fun _ => r) k hexes
      = hexes.map (delayOf w dir sinQ r) := by
  induction hexes generalizing k with
  | nil => simp [calculateDelays]
  | cons a rest ih => simp [calculateDelays, ih]

end Directional

/-- C2 counterexample: the claimed bound `delay ≤ WAVE_SPREAD` is false.  At
a 0×0 viewport the directional variant still generates its 8×8 overscan
grid, and the tile in row 0, column 6 (`x = 185.6`, `y = -160`, an even
column, so its coordinates do not involve `Math.sqrt(3)`) gets
`delay = clamp(1.08 * 0.5 + 0 + 0, 0, 0.95) = 0.54 > 0.5 = WAVE_SPREAD`,
here instantiated with the sine model constantly 0 and every jitter draw
at 0.5. -/
theorem delay_exceeds_spread_counterexample : ¬ delaysWithinSpread := by
  intro hcl
  have h2 := hcl.1 0 0 (7/4) WaveDir.ltr (fun _ => 0) (fun _ => 1/2)
    (by norm_num) (by norm_num) (fun t => by norm_num) (fun i => by norm_num)
  rw [Directional.calculateDelays_const_rand] at h2
  have hmem : ({ x := 928/5, y := -160, delay := 0 } : Hex)
      ∈ Directional.generateHexGrid 0 0 (7/4) := by
    unfold Directional.generateHexGrid
    refine List.mem_flatMap.mpr
      ⟨0, List.mem_range.mpr ?_, List.mem_map.mpr ⟨6, List.mem_range.mpr ?_, ?_⟩⟩
    · norm_num [Directional.HEX_SIZE, Int.toNat_ofNat]
    · norm_num [Directional.HEX_SIZE, Int.toNat_ofNat]
    · norm_num [Directional.HEX_SIZE]
  have hP := h2 _ (List.mem_map_of_mem (Directional.delayOf 0 WaveDir.ltr (fun _ => 0) (1/2)) hmem)
  have hval : (Directional.delayOf 0 WaveDir.ltr (fun _ => 0) (1/2)
      ({ x := 928/5, y := -160, delay := 0 } : Hex)).delay = 27/50 := by
    simp only [Directional.delayOf, Directional.HEX_SIZE, Directional.WAVE_SPREAD,
      Directional.STAGGER_NOISE]
    norm_num [min_def, max_def]
  rw [hval, Directional.WAVE_SPREAD] at hP
  have := hP.2
  norm_num at this

/-- C2 amended: every delay assigned by `calculateDelays` lies in `[0, 0.95]`
in the directional variant and in `[0, 1]` in the radial variant — the clamp's
upper bound is a constant, not `WAVE_SPREAD`, so delays can exceed the
spread (they do for overscan tiles, see the counterexample). -/
theorem calculateDelays_clamp_bounds :
    (∀ (w : ℚ) (dir : WaveDir) (sinQ : ℚ → ℚ) (rand : ℕ → ℚ) (k : ℕ) (hexes : List Hex),
      ∀ hx ∈ Directional.calculateDelays w dir sinQ rand k hexes,
        0 ≤ hx.delay ∧ hx.delay ≤ 95/100) ∧
    (∀ (sqrtQ : ℚ → ℚ) (rand : ℕ → ℚ) (w h ox oy : ℚ) (k : ℕ) (hexes : List Hex),
      ∀ hx ∈ Radial.calculateDelays sqrtQ rand w h ox oy k hexes,
        0 ≤ hx.delay ∧ hx.delay ≤ 1) :=
  ⟨fun w dir sinQ rand k hexes => Directional.calculateDelays_delay_bounds w dir sinQ rand k hexes,
   fun sqrtQ rand w h ox oy k hexes => Radial.calculateDelays_delay_bounds_radial sqrtQ rand w h ox oy k hexes⟩

theorem calculateDelays_clamp_bounds_witness :
    (0 ≤ (Directional.delayOf 0 WaveDir.ltr (fun _ => 0) 0 ⟨0, 0, 0⟩).delay ∧
      (Directional.delayOf 0 WaveDir.ltr (fun _ => 0) 0 ⟨0, 0, 0⟩).delay ≤ 95/100) ∧
    (0 ≤ (Radial.delayOf (fun _ => 0) 0 0 0 0 0 ⟨0, 0, 0⟩).delay ∧
      (Radial.delayOf (fun _ => 0) 0 0 0 0 0 ⟨0, 0, 0⟩).delay ≤ 1) :=
  ⟨calculateDelays_clamp_bounds.1 0 WaveDir.ltr (fun _ => 0) (fun _ => 0) 0 [⟨0, 0, 0⟩]
      (Directional.delayOf 0 WaveDir.ltr (fun _ => 0) 0 ⟨0, 0, 0⟩)
      (by simp [Directional.calculateDelays]),
   calculateDelays_clamp_bounds.2 (fun _ => 0) (fun _ => 0) 0 0 0 0 0 [⟨0, 0, 0⟩]
      (Radial.delayOf (fun _ => 0) 0 0 0 0 0 ⟨0, 0, 0⟩)
      (by simp [Radial.calculateDelays])⟩

/-- C4 counterexample: the radial variant's compositor does not apply the
claimed quartic easing.  At global progress `13/40` a tile with delay 0 has
local progress `1/2`; the radial code eases it with `easeInOutCubic` to
`1/2` and draws radius `16`, while the claimed quartic ease-out yields
`15/16` and radius `2`. -/
theorem radial_easing_not_quartic_counterexample :
    Radial.easedProgress (13/40) 0 = 1/2 ∧
    Spec.easedProgress Direction.reveal (13/40) 0 Radial.WAVE_SPREAD = 15/16 ∧
    Radial.tileDrawSize Direction.reveal (13/40) 0 = 16 ∧
    Spec.tileRadius Direction.reveal (13/40) 0 Radial.WAVE_SPREAD Radial.HEX_SIZE = 2 ∧
    Radial.tileDrawSize Direction.reveal (13/40) 0
      ≠ Spec.tileRadius Direction.reveal (13/40) 0 Radial.WAVE_SPREAD Radial.HEX_SIZE := by
  have hlp : Radial.hexProgress (13/40) 0 = 1/2 := by
    rw [Radial.hexProgress, Radial.WAVE_SPREAD]
    rw [min_eq_right (by norm_num), max_eq_right (by norm_num)]
    norm_num
  have hsp : Spec.localProgress (13/40) 0 Radial.WAVE_SPREAD = 1/2 := by
    rw [Spec.localProgress, Radial.WAVE_SPREAD]
    rw [min_eq_right (by norm_num), max_eq_right (by norm_num)]
    norm_num
  have he : Radial.easedProgress (13/40) 0 = 1/2 := by
    rw [Radial.easedProgress, hlp, Radial.easeInOutCubic]
    norm_num
  have hq : Spec.easedProgress Direction.reveal (13/40) 0 Radial.WAVE_SPREAD = 15/16 := by
    rw [show Spec.easedProgress Direction.reveal (13/40) 0 Radial.WAVE_SPREAD
        = 1 - (1 - Spec.localProgress (13/40) 0 Radial.WAVE_SPREAD)^4 from rfl, hsp]
    norm_num
  refine ⟨he, hq, ?_, ?_, ?_⟩
  · rw [show Radial.tileDrawSize Direction.reveal (13/40) 0
        = Radial.HEX_SIZE * (1 - Radial.easedProgress (13/40) 0) from rfl, he, Radial.HEX_SIZE]
    norm_num
  · rw [show Spec.tileRadius Direction.reveal (13/40) 0 Radial.WAVE_SPREAD Radial.HEX_SIZE
        = Radial.HEX_SIZE * (1 - Spec.easedProgress Direction.reveal (13/40) 0 Radial.WAVE_SPREAD)
        from rfl, hq, Radial.HEX_SIZE]
    norm_num
  · rw [show Radial.tileDrawSize Direction.reveal (13/40) 0
        = Radial.HEX_SIZE * (1 - Radial.easedProgress (13/40) 0) from rfl, he]
    rw [show Spec.tileRadius Direction.reveal (13/40) 0 Radial.WAVE_SPREAD Radial.HEX_SIZE
        = Radial.HEX_SIZE * (1 - Spec.easedProgress Direction.reveal (13/40) 0 Radial.WAVE_SPREAD)
        from rfl, hq, Radial.HEX_SIZE]
    norm_num

/-- C4 amended: the directional variant's compositor computes exactly the
spec formulas — `localProgress = clamp((progress − delay)/(1 − spread), 0, 1)`,
quartic ease-out on reveal and quartic ease-in on hide, and drawn radius
`drawRadius × (1 − eased)` on reveal and `drawRadius × eased` on hide (with
`spread = 0.5`, `drawRadius = 48`); the radial variant instead applies a
cubic ease-in-out for both directions (see the counterexample). -/
theorem directional_compositor_refines_spec (dir : Direction) (p d : ℚ) :
    Directional.hexProgress p d = Spec.localProgress p d Directional.WAVE_SPREAD ∧
    Directional.easedProgress dir p d = Spec.easedProgress dir p d Directional.WAVE_SPREAD ∧
    Directional.tileDrawSize dir p d
      = Spec.tileRadius dir p d Directional.WAVE_SPREAD Directional.HEX_DRAW_SIZE := by
  refine ⟨rfl, ?_, ?_⟩
  · cases dir with
    | reveal =>
        simp [Directional.easedProgress, Spec.easedProgress, Directional.easeOutQuart,
          Directional.hexProgress, Spec.localProgress]
    | hide =>
        simp [Directional.easedProgress, Spec.easedProgress, Directional.easeInQuart,
          Directional.hexProgress, Spec.localProgress]
        ring
  · cases dir with
    | reveal =>
        simp [Directional.tileDrawSize, Directional.tileScale, Spec.tileRadius,
          Directional.easedProgress, Spec.easedProgress, Directional.easeOutQuart,
          Directional.easeInQuart, Directional.hexProgress, Spec.localProgress]
    | hide =>
        simp [Directional.tileDrawSize, Directional.tileScale, Spec.tileRadius,
          Directional.easedProgress, Spec.easedProgress, Directional.easeOutQuart,
          Directional.easeInQuart, Directional.hexProgress, Spec.localProgress]
        exact Or.inl (by ring)

namespace Directional

lemma generateHexGrid_length (w h s3 : ℚ) :
    (generateHexGrid w h s3).length
      = (⌈h / (s3 * HEX_SIZE * (88/100))⌉ + 8).toNat
        * (⌈w / (HEX_SIZE * 2 * (72/100))⌉ + 8).toNat := by
  unfold generateHexGrid
  simp [List.length_flatMap, Function.comp_def, List.map_const', smul_eq_mul, mul_comm]

lemma generateHexGrid_length_ge (w h s3 : ℚ) (hw : 0 ≤ w) (hh : 0 ≤ h) (hs : 0 < s3) :
    64 ≤ (generateHexGrid w h s3).length := by
  rw [generateHexGrid_length]
  have hcol : (0:ℤ) ≤ ⌈w / (HEX_SIZE * 2 * (72/100))⌉ :=
    Int.ceil_nonneg (div_nonneg hw (by norm_num [HEX_SIZE]))
  have hvpos : (0:ℚ) ≤ s3 * HEX_SIZE * (88/100) :=
    mul_nonneg (mul_nonneg hs.le (by norm_num [HEX_SIZE])) (by norm_num)
  have hrow : (0:ℤ) ≤ ⌈h / (s3 * HEX_SIZE * (88/100))⌉ :=
    Int.ceil_nonneg (div_nonneg hh hvpos)
  have h1 : 8 ≤ (⌈h / (s3 * HEX_SIZE * (88/100))⌉ + 8).toNat := by omega
  have h2 : 8 ≤ (⌈w / (HEX_SIZE * 2 * (72/100))⌉ + 8).toNat := by omega
  calc (64:ℕ) = 8 * 8 := by norm_num
    _ ≤ _ := Nat.mul_le_mul h1 h2

lemma generateHexGrid_zero_length :
    (generateHexGrid 0 0 (7/4)).length = 64 := by
  rw [generateHexGrid_length]
  norm_num [HEX_SIZE, Int.toNat_ofNat]
  decide

end Directional

namespace Radial

lemma generateHexGrid_length_radial (w h s3 : ℚ) :
    (generateHexGrid w h s3).length
      = (⌈h / (s3 * HEX_SIZE + 2)⌉ + 4).toNat
        * (⌈w / (HEX_SIZE * 2 * (75/100) + 2)⌉ + 4).toNat := by
  unfold generateHexGrid
  simp [List.length_flatMap, Function.comp_def, List.map_const', smul_eq_mul, mul_comm]

lemma generateHexGrid_zero_length_radial :
    (generateHexGrid 0 0 (7/4)).length = 16 := by
  rw [generateHexGrid_length_radial]
  norm_num [HEX_SIZE, Int.toNat_ofNat]
  decide

end Radial

/-- C7 counterexample: a fully degenerate 0×0 viewport does not yield an
empty tile set — the directional variant still generates its 8×8 = 64
overscan tiles and the radial variant its 4×4 = 16. -/
theorem degenerate_viewport_not_empty_counterexample :
    (Directional.generateHexGrid 0 0 (7/4)).length = 64 ∧
    (Radial.generateHexGrid 0 0 (7/4)).length = 16 ∧
    (Directional.generateHexGrid 0 0 (7/4)).length ≠ 0 := by
  refine ⟨Directional.generateHexGrid_zero_length, Radial.generateHexGrid_zero_length_radial, ?_⟩
  rw [Directional.generateHexGrid_zero_length]
  norm_num

/-- C7 amended: degenerate (zero-sized) viewports still produce the full
overscan margin — any non-negative viewport yields at least 64 tiles in the
directional variant, never an empty set; the compositor's per-tick draw loop
over an empty tile set issues no draw calls, so an empty set is indeed a
no-op, but the generator does not produce one for degenerate viewports (the
tile radius is a positive compile-time constant, so the non-positive-radius
case cannot arise). -/
theorem degenerate_viewport_grid_noop (w h s3 : ℚ) (dir : Direction) (p : ℚ)
    (hw : 0 ≤ w) (hh : 0 ≤ h) (hs : 0 < s3) :
    64 ≤ (Directional.generateHexGrid w h s3).length ∧
    Directional.frameDrawCalls dir p [] = 0 :=
  ⟨Directional.generateHexGrid_length_ge w h s3 hw hh hs, rfl⟩

theorem degenerate_viewport_grid_noop_witness :
    ((0:ℚ) ≤ 0 ∧ (0:ℚ) < 7/4) ∧
    64 ≤ (Directional.generateHexGrid 0 0 (7/4)).length ∧
    Directional.frameDrawCalls Direction.reveal 0 [] = 0 :=
  ⟨⟨le_refl 0, by norm_num⟩,
    degenerate_viewport_grid_noop 0 0 (7/4) Direction.reveal 0 le_rfl le_rfl (by norm_num)⟩

/-- C5 counterexample: in reduced-motion mode tiles are still generated —
the grid is built before the reduced-motion check — so "generates no tiles"
is false: at a 0×0 viewport the run holds 64 tiles. -/
theorem reducedMotion_generates_tiles_counterexample :
    (Directional.runEffect true true true true Direction.reveal 0 0 (7/4)).tilesGenerated = 64 ∧
    (Directional.runEffect true true true true Direction.reveal 0 0 (7/4)).tilesGenerated ≠ 0 := by
  have h : (Directional.runEffect true true true true Direction.reveal 0 0 (7/4)).tilesGenerated
      = (Directional.generateHexGrid 0 0 (7/4)).length := by
    simp [Directional.runEffect]
  rw [h, Directional.generateHexGrid_zero_length]
  norm_num

/-- C5 amended: with the reduced-motion preference, a run performs no
per-frame scheduling and issues no tile draw calls, and fires
`onPartialReveal` then `onComplete` in order from a single timeout armed
with a fixed 50 ms delay; however the tile grid is still generated (it is
built before the reduced-motion check), e.g. at least 64 tiles for any
non-negative viewport. -/
theorem reducedMotion_run (dir : Direction) (w h s3 : ℚ)
    (hw : 0 ≤ w) (hh : 0 ≤ h) (hs : 0 < s3) :
    (Directional.runEffect true true true true dir w h s3).frameLoopArmed = false ∧
    (Directional.runEffect true true true true dir w h s3).tileDrawCalls = 0 ∧
    (Directional.runEffect true true true true dir w h s3).reducedTimeout
      = some (50, [Event.partialReveal, Event.complete]) ∧
    (Directional.runEffect true true true true dir w h s3).syncCallbacks = [] ∧
    64 ≤ (Directional.runEffect true true true true dir w h s3).tilesGenerated := by
  refine ⟨by simp [Directional.runEffect], by simp [Directional.runEffect],
    by simp [Directional.runEffect], by simp [Directional.runEffect], ?_⟩
  have hrw : (Directional.runEffect true true true true dir w h s3).tilesGenerated
      = (Directional.generateHexGrid w h s3).length := by
    simp [Directional.runEffect]
  rw [hrw]
  exact Directional.generateHexGrid_length_ge w h s3 hw hh hs

theorem reducedMotion_run_witness :
    ((0:ℚ) ≤ 0 ∧ (0:ℚ) < 7/4) ∧
    (Directional.runEffect true true true true Direction.reveal 0 0 (7/4)).frameLoopArmed = false ∧
    (Directional.runEffect true true true true Direction.reveal 0 0 (7/4)).reducedTimeout
      = some (50, [Event.partialReveal, Event.complete]) ∧
    64 ≤ (Directional.runEffect true true true true Direction.reveal 0 0 (7/4)).tilesGenerated := by
  have h := reducedMotion_run Direction.reveal 0 0 (7/4) le_rfl le_rfl (by norm_num)
  exact ⟨⟨le_refl 0, by norm_num⟩, h.1, h.2.2.1, h.2.2.2.2⟩

/-- C6 counterexample: with the canvas element absent at run start, the
effect body returns early firing nothing: no synchronous callbacks, no
timeout, no frame loop — contrary to the claim that `onPartialReveal` and
`onComplete` are fired immediately. -/
theorem missingSurface_no_callbacks_counterexample :
    (Directional.runEffect true false true false Direction.reveal 1920 1080 (7/4)).syncCallbacks
      = [] ∧
    (Directional.runEffect true false true false Direction.reveal 1920 1080 (7/4)).syncCallbacks
      ≠ [Event.partialReveal, Event.complete] ∧
    (Directional.runEffect true false true false Direction.reveal 1920 1080 (7/4)).reducedTimeout
      = none ∧
    (Directional.runEffect true false true false Direction.reveal 1920 1080 (7/4)).frameLoopArmed
      = false := by
  refine ⟨by simp [Directional.runEffect], ?_, by simp [Directional.runEffect],
    by simp [Directional.runEffect]⟩
  simp [Directional.runEffect]

/-- C6 amended: if the drawing surface is unavailable at run start (canvas
element or 2D context absent), the effect aborts early without doing
anything at all: no tiles, no draw calls, no frame loop, no timeout, and —
contrary to the spec — no `onPartialReveal`/`onComplete` callbacks, so the
caller's mount/navigate logic is left waiting. -/
theorem missingSurface_aborts (cp ctx rm : Bool) (dir : Direction) (w h s3 : ℚ)
    (hmiss : cp = false ∨ ctx = false) :
    Directional.runEffect true cp ctx rm dir w h s3
      = { tilesGenerated := 0, tileDrawCalls := 0, frameLoopArmed := false
          reducedTimeout := none, syncCallbacks := [] } := by
  rcases hmiss with h | h
  · subst h
    simp [Directional.runEffect]
  · subst h
    cases cp <;> simp [Directional.runEffect]

theorem missingSurface_aborts_witness :
    ((false = false ∨ true = false)) ∧
    Directional.runEffect true false true false Direction.reveal 1920 1080 (7/4)
      = { tilesGenerated := 0, tileDrawCalls := 0, frameLoopArmed := false
          reducedTimeout := none, syncCallbacks := [] } :=
  ⟨Or.inl rfl,
    missingSurface_aborts false true false Direction.reveal 1920 1080 (7/4) (Or.inl rfl)⟩
